import Mathlib

/-!
Verification development for the farmer-data ETL utility
(`src/db_loader.py`): a shallow embedding of the record-preparation,
schema-provisioning, batch-loading and statistics operations of
`DatabaseLoader`, together with theorems settling the specified
properties.

Cell values of a pandas DataFrame are modelled by `PValue`; a
DataFrame is an ordered list of named columns.  Machine floats of the
source appear only as integers or as the missing value `vnull`
(NaN/NaT/None), which is all the verified properties depend on.
-/

/-- A cell value: null (NaN/NaT/None), a string, an integer, a parsed
date (encoded `y*10000 + m*100 + d`), or a timestamp tick. -/
inductive PValue : Type
  | vnull : PValue
  | vstr (s : String) : PValue
  | vnum (n : Int) : PValue
  | vdate (d : Nat) : PValue
  | vtime (t : Nat) : PValue
deriving DecidableEq, Repr

/-- A DataFrame: ordered columns, each a name with its cell values
(`pd.DataFrame` as produced by `pd.read_csv`). -/
abbrev DataFrame := List (String × List PValue)

/-- The column names of a DataFrame, in order (`df.columns`). -/
def colNames (df : DataFrame) : List String := df.map Prod.fst

/-- The first column with the given name, if any. -/
def findCol : DataFrame → String → Option (List PValue)
  | [], _ => none
  | c :: rest, n => if c.1 = n then some c.2 else findCol rest n

/-- The values of the first column with the given name (`[]` when absent). -/
def getColVals (df : DataFrame) (n : String) : List PValue :=
  (findCol df n).getD []

/-- Number of rows (length of the leading column; 0 for a frame with no
columns). -/
def nRows (df : DataFrame) : Nat :=
  match df with
  | [] => 0
  | c :: _ => c.2.length

/-- Apply a header mapping to one column name: mapped names are renamed,
unmapped names are kept (`pd.DataFrame.rename` semantics). -/
def applyMapping (mapping : List (String × String)) (n : String) : String :=
  match mapping.lookup n with
  | some t => t
  | none => n

/-- `df.rename(columns=mapping)`: renames the columns whose header is in
the mapping and keeps every other column under its original name. -/
def renameCols (mapping : List (String × String)) (df : DataFrame) : DataFrame :=
  df.map (fun c => (applyMapping mapping c.1, c.2))

/-- Rewrite every column named `n` through `G` (`G` keeps the name and
recomputes the values). -/
def mapAtCol (df : DataFrame) (n : String)
    (G : String × List PValue → String × List PValue) : DataFrame :=
  df.map (fun p => if p.1 = n then G p else p)

/-- `if col in df.columns: df[col] = f(df[col])` — map a function over the
values of the named column, leaving the frame unchanged when the column
is absent. -/
def transformCol (df : DataFrame) (n : String) (f : PValue → PValue) : DataFrame :=
  if n ∈ colNames df then mapAtCol df n (fun c => (c.1, c.2.map f))
  else df

/-- `df[name] = scalar`: overwrite the named column with the scalar
broadcast over its rows, or append a new column of the scalar broadcast
over the frame's row count when the name is absent. -/
def setScalarCol (df : DataFrame) (n : String) (v : PValue) : DataFrame :=
  if n ∈ colNames df then mapAtCol df n (fun c => (c.1, List.replicate c.2.length v))
  else df ++ [(n, List.replicate (nRows df) v)]

/-! ### Value coercions (pandas `to_datetime`, `to_numeric`, `astype(str)`) -/

/-- Whitespace characters stripped by `str.strip` (ASCII subset). -/
def isSpaceChar (c : Char) : Bool :=
  c == ' ' || c == '\t' || c == '\n' || c == '\r'

/-- Python `str.strip()`: drop leading and trailing whitespace. -/
def pyStrip (s : String) : String :=
  String.mk (((s.data.dropWhile isSpaceChar).reverse.dropWhile isSpaceChar).reverse)

/-- Read a non-empty all-digit character sequence as a natural number. -/
def digitsToNat (l : List Char) : Option Nat :=
  if l.isEmpty then none
  else
    l.foldl
      (fun acc c =>
        match acc with
        | none => none
        | some n => if c.isDigit then some (n * 10 + (c.toNat - 48)) else none)
      (some 0)

/-- Split a character list on a separator character. -/
def splitOnChar (sep : Char) : List Char → List (List Char)
  | [] => [[]]
  | c :: rest =>
    let r := splitOnChar sep rest
    if c == sep then [] :: r
    else
      match r with
      | [] => [[c]]
      | g :: gs => (c :: g) :: gs

/-- Modelled fragment of the pandas date parser: an ISO `YYYY-MM-DD`
string parses to the encoded date; anything else (in particular the
empty string) is unparsable. -/
def parseYMD (s : String) : Option Nat :=
  match splitOnChar '-' (pyStrip s).data with
  | [y, m, d] =>
    match digitsToNat y, digitsToNat m, digitsToNat d with
    | some yv, some mv, some dv =>
      if y.length == 4 && 1 ≤ mv && mv ≤ 12 && 1 ≤ dv && dv ≤ 31 then
        some (yv * 10000 + mv * 100 + dv)
      else none
    | _, _, _ => none
  | _ => none

/-- Modelled fragment of `pd.to_numeric`'s string conversion: an optional
sign followed by digits (surrounding whitespace ignored); anything else
is unparsable. -/
def parseNum (s : String) : Option Int :=
  match (pyStrip s).data with
  | '-' :: rest => (digitsToNat rest).map (fun n => -(n : Int))
  | t => (digitsToNat t).map Int.ofNat

/-- `pd.to_datetime` without error suppression: missing values pass
through as NaT, parsable strings become dates, unparsable strings raise.
Values that are already dates/numbers/timestamps convert without error
(numeric input is interpreted via an epoch offset, modelled abstractly). -/
def toDatetimeStrict : PValue → Except String PValue
  | PValue.vnull => Except.ok PValue.vnull
  | PValue.vstr s =>
    match parseYMD s with
    | some d => Except.ok (PValue.vdate d)
    | none => Except.error s
  | PValue.vnum n => Except.ok (PValue.vdate n.toNat)
  | PValue.vdate d => Except.ok (PValue.vdate d)
  | PValue.vtime t => Except.ok (PValue.vdate t)

/-- `pd.to_datetime(col, errors='coerce')`: any value whose strict
conversion raises becomes null (NaT) instead. -/
def toDatetimeCoerce (v : PValue) : PValue :=
  match toDatetimeStrict v with
  | Except.ok r => r
  | Except.error _ => PValue.vnull

/-- `pd.to_numeric` without error suppression. -/
def toNumericStrict : PValue → Except String PValue
  | PValue.vnull => Except.ok PValue.vnull
  | PValue.vstr s =>
    match parseNum s with
    | some n => Except.ok (PValue.vnum n)
    | none => Except.error s
  | PValue.vnum n => Except.ok (PValue.vnum n)
  | PValue.vdate d => Except.ok (PValue.vnum (Int.ofNat d))
  | PValue.vtime t => Except.ok (PValue.vnum (Int.ofNat t))

/-- `pd.to_numeric(col, errors='coerce')`: unparsable values become null
(NaN) instead of raising. -/
def toNumericCoerce (v : PValue) : PValue :=
  match toNumericStrict v with
  | Except.ok r => r
  | Except.error _ => PValue.vnull

/-- `astype(str)` on one cell: a missing value (float NaN, as produced by
`read_csv`) renders as the literal text `nan`. -/
def pvalToStr : PValue → String
  | PValue.vnull => "nan"
  | PValue.vstr s => s
  | PValue.vnum n => toString n
  | PValue.vdate d => toString d
  | PValue.vtime t => toString t

/-- The per-cell effect of
`df[col].astype(str).str.strip()` followed by `.replace('nan', None)`:
stringify, trim, and turn an exact (post-trim) `"nan"` into null. -/
def cleanString (v : PValue) : PValue :=
  let s := pyStrip (pvalToStr v)
  if s == "nan" then PValue.vnull else PValue.vstr s

/-! ### `DatabaseLoader._prepare_data_for_db` -/

/-- The fixed CSV-header → database-column mapping of
`_prepare_data_for_db`. -/
def columnMapping : List (String × String) :=
  [("S.no", "serial_number"),
   ("Status", "status"),
   ("Farmer Code", "farmer_code"),
   ("Farmer Name", "farmer_name"),
   ("Govt id num", "govt_id_number"),
   ("Primary Contact", "primary_contact"),
   ("Farmer Created Date", "farmer_created_date"),
   ("Plot Created Date", "plot_created_date"),
   ("Sync Date", "sync_date"),
   ("Updation Date", "updation_date"),
   ("Area", "area"),
   ("GPS Area", "gps_area"),
   ("Village", "village"),
   ("source_sheet", "source_sheet")]

/-- The mapped target column names. -/
def targetColumnNames : List String := columnMapping.map Prod.snd

/-- The date-typed target columns. -/
def dateColumns : List String :=
  ["farmer_created_date", "plot_created_date", "sync_date", "updation_date"]

/-- The numeric target columns. -/
def numericColumns : List String := ["serial_number", "area", "gps_area"]

/-- The textual target columns. -/
def stringColumns : List String :=
  ["status", "farmer_code", "farmer_name", "govt_id_number",
   "primary_contact", "village", "source_sheet"]

/-- The three system-managed timestamp columns added at the end of
record preparation. -/
def metaColumns : List String := ["imported_at", "created_at", "updated_at"]

/-- `DatabaseLoader._prepare_data_for_db`.  `now` is the system clock:
`now k` is the value returned by the k-th `pd.Timestamp.now()` call of
the invocation (the method calls it three times, once per metadata
column). -/
def prepareDataForDb (now : Nat → Nat) (df : DataFrame) : DataFrame :=
  let df_prep := df
  let df_prep := renameCols columnMapping df_prep
  let df_prep := dateColumns.foldl (fun d c => transformCol d c toDatetimeCoerce) df_prep
  let df_prep := numericColumns.foldl (fun d c => transformCol d c toNumericCoerce) df_prep
  let df_prep := stringColumns.foldl (fun d c => transformCol d c cleanString) df_prep
  let df_prep := setScalarCol df_prep "imported_at" (PValue.vtime (now 0))
  let df_prep := setScalarCol df_prep "created_at" (PValue.vtime (now 1))
  setScalarCol df_prep "updated_at" (PValue.vtime (now 2))

/-! ### Aliased-frame model of `_prepare_data_for_db` (the `df.copy()`)

The Python method receives a reference to the caller's DataFrame and
mutates only its own copy.  References into a frame store are modelled
explicitly so the copy is load-bearing: had the method mutated the
argument in place, the caller's slot would change. -/

/-- A store of DataFrames addressed by references. -/
abbrev Heap := List (Nat × DataFrame)

/-- Dereference (None for a dangling reference). -/
def hlookup : Heap → Nat → Option DataFrame
  | [], _ => none
  | p :: rest, r => if p.1 = r then some p.2 else hlookup rest r

/-- Dereference with a default empty frame. -/
def hgetD (h : Heap) (r : Nat) : DataFrame := (hlookup h r).getD []

/-- Overwrite the frame stored at an existing reference. -/
def hset (h : Heap) (r : Nat) (d : DataFrame) : Heap :=
  h.map (fun p => if p.1 = r then (r, d) else p)

/-- A reference unused by the store. -/
def freshRef (h : Heap) : Nat := (h.map Prod.fst).foldl max 0 + 1

/-- Run a sequence of in-place updates against the slot `rp`: each step
reads the slot, applies its frame transformation, and writes the slot
back (one step per mutating statement of the method body). -/
def applyStepsHeap (rp : Nat) : List (DataFrame → DataFrame) → Heap → Heap
  | [], hh => hh
  | f :: rest, hh => applyStepsHeap rp rest (hset hh rp (f (hgetD hh rp)))

/-- The mutating statements of `_prepare_data_for_db` in source order:
the rename, the three coercion loops, and the three timestamp-column
assignments. -/
def prepSteps (now : Nat → Nat) : List (DataFrame → DataFrame) :=
  [renameCols columnMapping,
   fun d => dateColumns.foldl (fun d2 c => transformCol d2 c toDatetimeCoerce) d,
   fun d => numericColumns.foldl (fun d2 c => transformCol d2 c toNumericCoerce) d,
   fun d => stringColumns.foldl (fun d2 c => transformCol d2 c cleanString) d,
   fun d => setScalarCol d "imported_at" (PValue.vtime (now 0)),
   fun d => setScalarCol d "created_at" (PValue.vtime (now 1)),
   fun d => setScalarCol d "updated_at" (PValue.vtime (now 2))]

/-- `_prepare_data_for_db` against the frame store: `r` is the caller's
DataFrame reference; `df_prep = df.copy()` allocates a fresh slot with a
copy of the caller's frame, every subsequent statement of the method
mutates that slot, and the new reference is returned. -/
def prepareDataForDbHeap (now : Nat → Nat) (h : Heap) (r : Nat) : Heap × Nat :=
  let rp := freshRef h
  (applyStepsHeap rp (prepSteps now) ((rp, hgetD h r) :: h), rp)

/-! ### Schema provisioning (`create_table`, `_create_indexes`) -/

/-- A literal read from the YAML configuration (a column default). -/
inductive SqlLit : Type
  | lint (n : Int) : SqlLit
  | lstr (s : String) : SqlLit
  | lbool (b : Bool) : SqlLit
deriving DecidableEq, Repr

/-- Python truthiness of a configuration literal. -/
def truthy : SqlLit → Bool
  | SqlLit.lint n => !(n == 0)
  | SqlLit.lstr s => !(s == "")
  | SqlLit.lbool b => b

/-- The literal as interpolated into the DDL f-string. -/
def litToSql : SqlLit → String
  | SqlLit.lint n => toString n
  | SqlLit.lstr s => s
  | SqlLit.lbool b => if b then "True" else "False"

/-- One column entry of `table_schema.columns` in the configuration.
A `none` field is a key absent from the YAML mapping. -/
structure ColumnSpec : Type where
  type : String
  primary_key : Option Bool
  unique : Option Bool
  nullable : Option Bool
  defaultVal : Option SqlLit
deriving DecidableEq, Repr

/-- One entry of the `indexes` configuration list. -/
structure IndexSpec : Type where
  name : String
  columns : List String
  unique : Bool
deriving DecidableEq, Repr

/-- The table portion of the configuration consumed by `create_table`. -/
structure TableConfig : Type where
  table_name : String
  columns : List (String × ColumnSpec)
  indexes : List IndexSpec
deriving DecidableEq, Repr

/-- The column definition fragment built by `create_table`'s loop body:
type, then PRIMARY KEY (taking precedence over UNIQUE), then NOT NULL
when `col_config.get('nullable', True)` is falsy, then DEFAULT when
`col_config.get('default')` is truthy. -/
def colDef (col_name : String) (c : ColumnSpec) : String :=
  let d := "    " ++ col_name ++ " " ++ c.type
  let d :=
    if c.primary_key.getD false then d ++ " PRIMARY KEY"
    else if c.unique.getD false then d ++ " UNIQUE"
    else d
  let d := if !(c.nullable.getD true) then d ++ " NOT NULL" else d
  match c.defaultVal with
  | some l => if truthy l then d ++ " DEFAULT " ++ litToSql l else d
  | none => d

/-- The column definition fragment as the specification words it: NOT
NULL appears exactly when `nullable` is present and false (a missing
flag counts as true), and DEFAULT appears exactly when a default is
configured and that literal is truthy. -/
def colDefSpec (col_name : String) (c : ColumnSpec) : String :=
  let d := "    " ++ col_name ++ " " ++ c.type
  let d :=
    if c.primary_key = some true then d ++ " PRIMARY KEY"
    else if c.unique = some true then d ++ " UNIQUE"
    else d
  let d := if c.nullable = some false then d ++ " NOT NULL" else d
  match c.defaultVal with
  | some l => if truthy l then d ++ " DEFAULT " ++ litToSql l else d
  | none => d

/-- The `CREATE TABLE IF NOT EXISTS` statement assembled by
`create_table`. -/
def buildCreateSql (cfg : TableConfig) : String :=
  "CREATE TABLE IF NOT EXISTS " ++ cfg.table_name ++ " (\n" ++
    String.intercalate ",\n" (cfg.columns.map (fun p => colDef p.1 p.2)) ++ "\n);"

/-- The `CREATE [UNIQUE] INDEX` statement assembled by
`_create_indexes`. -/
def buildIndexSql (table : String) (i : IndexSpec) : String :=
  "CREATE " ++ (if i.unique then "UNIQUE " else "") ++ "INDEX " ++ i.name ++
    " ON " ++ table ++ " (" ++ String.intercalate ", " i.columns ++ ")"

/-- The engine-side catalog state: created tables (name with the DDL
that created them) and the `pg_indexes` view as (tablename, indexname)
pairs. -/
structure DbState : Type where
  tables : List (String × String)
  indexes : List (String × String)
deriving DecidableEq, Repr

/-- Engine execution of `CREATE TABLE IF NOT EXISTS`: a no-op when a
table of that name exists, otherwise the table is added; never a
duplicate-object error. -/
def execCreateTableIfNotExists (σ : DbState) (name : String) (sql : String) : DbState :=
  if name ∈ σ.tables.map Prod.fst then σ
  else DbState.mk (σ.tables ++ [(name, sql)]) σ.indexes

/-- The `for index in indexes` loop of `_create_indexes`, running inside
one connection: each index is first checked against `pg_indexes` by
(tablename, indexname) and skipped when present; otherwise `CREATE
INDEX` executes, and `fails` tells whether that statement raises.  A
raise escapes the loop as `Except.error`. -/
def createIndexesLoop (fails : String → Bool) (table : String) :
    List IndexSpec → DbState → Except String DbState
  | [], σ => Except.ok σ
  | i :: rest, σ =>
    if (table, i.name) ∈ σ.indexes then
      createIndexesLoop fails table rest σ
    else if fails i.name then Except.error i.name
    else
      createIndexesLoop fails table rest
        (DbState.mk σ.tables (σ.indexes ++ [(table, i.name)]))

/-- `DatabaseLoader._create_indexes`: on a clean loop the trailing
`conn.commit()` makes the created indexes durable; an exception from any
single `CREATE INDEX` closes the connection before that commit (the
uncommitted creations roll back), is caught by the method's `except`,
and is only logged. -/
def create_indexes (fails : String → Bool) (cfg : TableConfig) (σ : DbState) : DbState :=
  match createIndexesLoop fails cfg.table_name cfg.indexes σ with
  | Except.ok σ2 => σ2
  | Except.error _ => σ

/-- `DatabaseLoader.create_table`: build and execute the guarded CREATE
TABLE (committed immediately), then create the configured indexes;
returns success. -/
def create_table (fails : String → Bool) (cfg : TableConfig) (σ : DbState) :
    DbState × Bool :=
  let σ1 := execCreateTableIfNotExists σ cfg.table_name (buildCreateSql cfg)
  let σ2 := create_indexes fails cfg σ1
  (σ2, true)

/-! ### Batch loading (`load_csv_data` / `DataFrame.to_sql`) -/

/-- A database row of the target table. -/
abbrev Row := List (String × PValue)

/-- The chunking performed by `to_sql(..., chunksize=B)`: the records in
order, split into consecutive groups of `B` (the final group possibly
shorter).  Only meaningful for `0 < B` (pandas rejects other sizes). -/
def chunks (B : Nat) : List Row → List (List Row)
  | [] => []
  | x :: xs => (x :: xs.take (B - 1)) :: chunks B (xs.drop (B - 1))
termination_by l => l.length
decreasing_by
  simp only [List.length_drop, List.length_cons]
  omega

/-- The expected chunk sizes for `n` records at batch size `B`
(`min B n`, then the sizes for the remaining `n - B`), computed with a
structural fuel of `n` iterations. -/
def chunkLensAux (B : Nat) : Nat → Nat → List Nat
  | _, 0 => []
  | 0, _ + 1 => []
  | fuel + 1, n + 1 => min B (n + 1) :: chunkLensAux B fuel (n + 1 - B)

/-- The expected chunk sizes for `n` records at batch size `B`. -/
def chunkLens (B n : Nat) : List Nat := chunkLensAux B n n

/-- `to_sql(name, con, if_exists='append', chunksize=B, method='multi')`:
each chunk is submitted as one multi-row INSERT appended to the existing
table contents. -/
def to_sql_append (table : List Row) (records : List Row) (B : Nat) : List Row :=
  (chunks B records).foldl (fun t b => t ++ b) table

/-- The load step of `load_csv_data`: the table after the append together
with the record count the method reports
(`total_records = len(df_prepared)`). -/
def load_records (table : List Row) (records : List Row) (B : Nat) : List Row × Nat :=
  (to_sql_append table records B, records.length)

/-! ### Statistics (`get_table_stats`) -/

/-- A row's value in the named column (SQL null when absent). -/
def getField (r : Row) (c : String) : PValue := (r.lookup c).getD PValue.vnull

/-- The distinct values of a list in order of first occurrence
(the GROUP BY keys). -/
def distinctKeep : List PValue → List PValue
  | [] => []
  | x :: xs => x :: (distinctKeep xs).filter (fun y => !(y == x))

/-- `GROUP BY c` with `COUNT(*)`: each distinct value of column `c`
paired with its number of rows. -/
def groupPairs (table : List Row) (c : String) : List (PValue × Nat) :=
  let vals := table.map (fun r => getField r c)
  (distinctKeep vals).map (fun k => (k, vals.count k))

/-- Insert into a list kept in descending count order. -/
def insertByCountDesc (x : PValue × Nat) :
    List (PValue × Nat) → List (PValue × Nat)
  | [] => [x]
  | y :: ys => if y.2 < x.2 then x :: y :: ys else y :: insertByCountDesc x ys

/-- `ORDER BY count DESC`. -/
def sortByCountDesc (l : List (PValue × Nat)) : List (PValue × Nat) :=
  l.foldr insertByCountDesc []

/-- One of the two `GROUP BY ... ORDER BY count DESC` aggregate queries
of `get_table_stats`. -/
def groupCountDesc (table : List Row) (c : String) : List (PValue × Nat) :=
  sortByCountDesc (groupPairs table c)

/-- The dictionary assembled by `get_table_stats` on success. -/
structure LoadStats : Type where
  total_records : Nat
  records_by_sheet : List (PValue × Nat)
  records_by_status : List (PValue × Nat)
deriving DecidableEq, Repr

/-- One aggregate query: `fails k` tells whether the k-th query of the
method raises; otherwise it returns its result. -/
def runQuery (fails : Nat → Bool) (k : Nat) (res : α) : Except String α :=
  if fails k then Except.error "query failed" else Except.ok res

/-- The body of `get_table_stats`'s `try` block: total count, counts by
source_sheet, counts by status, in that order; a raise from any query
escapes. -/
def getTableStatsE (fails : Nat → Bool) (table : List Row) :
    Except String LoadStats :=
  match runQuery fails 0 table.length with
  | Except.error e => Except.error e
  | Except.ok total =>
    match runQuery fails 1 (groupCountDesc table "source_sheet") with
    | Except.error e => Except.error e
    | Except.ok bySheet =>
      match runQuery fails 2 (groupCountDesc table "status") with
      | Except.error e => Except.error e
      | Except.ok byStatus => Except.ok (LoadStats.mk total bySheet byStatus)

/-- `DatabaseLoader.get_table_stats`: any query failure is caught,
logged, and the empty dictionary (`none`) is returned instead of
propagating the error. -/
def get_table_stats (fails : Nat → Bool) (table : List Row) : Option LoadStats :=
  match getTableStatsE fails table with
  | Except.ok s => some s
  | Except.error _ => none

/-! ### Concrete demonstration inputs -/

/-- A demonstration configuration: one table, two configured indexes. -/
def demoCfg : TableConfig :=
  TableConfig.mk "t"
    [("id", ColumnSpec.mk "INTEGER" (some true) none none none)]
    [IndexSpec.mk "ia" ["id"] false, IndexSpec.mk "ib" ["id"] false]

/-- A failure oracle under which the `CREATE INDEX` statement for `ia`
raises and the one for `ib` succeeds. -/
def demoFails (n : String) : Bool := n == "ia"

/-- The empty engine catalog. -/
def emptyDb : DbState := DbState.mk [] []

/-! ### Column-level lemmas about the DataFrame operations -/

theorem findCol_eq_none_of_not_mem (df : DataFrame) (n : String)
    (h : n ∉ colNames df) : findCol df n = none := by
  induction df with
  | nil => rfl
  | cons c rest ih =>
    simp only [colNames, List.map_cons, List.mem_cons, not_or] at h
    simp [findCol, Ne.symm h.1, ih h.2]

theorem findCol_isSome_of_mem (df : DataFrame) (n : String)
    (h : n ∈ colNames df) : (findCol df n).isSome = true := by
  induction df with
  | nil => simp [colNames] at h
  | cons c rest ih =>
    by_cases h1 : c.1 = n
    · simp [findCol, h1]
    · simp only [colNames, List.map_cons, List.mem_cons] at h
      rcases h with h | h
      · exact absurd h.symm h1
      · simp [findCol, h1, ih h]

theorem findCol_mapAt_self (df : DataFrame) (n : String)
    (G : String × List PValue → String × List PValue)
    (F : List PValue → List PValue) (hG : ∀ p, G p = (p.1, F p.2)) :
    findCol (mapAtCol df n G) n = (findCol df n).map F := by
  induction df with
  | nil => rfl
  | cons c rest ih =>
    by_cases h : c.1 = n
    · simp [mapAtCol, findCol, h, hG]
    · simp only [mapAtCol, List.map_cons, if_neg h]
      simp [findCol, h]
      exact ih

theorem findCol_mapAt_ne (df : DataFrame) (n m : String)
    (G : String × List PValue → String × List PValue)
    (hG : ∀ p, (G p).1 = p.1) (hnm : m ≠ n) :
    findCol (mapAtCol df n G) m = findCol df m := by
  induction df with
  | nil => rfl
  | cons c rest ih =>
    by_cases h1 : c.1 = n
    · have h2 : ¬ c.1 = m := fun hcm => hnm (hcm ▸ h1 ▸ rfl)
      simp only [mapAtCol, List.map_cons, if_pos h1]
      simp only [findCol, hG, h1, if_neg (Ne.symm hnm), if_neg h2]
      exact ih
    · simp only [mapAtCol, List.map_cons, if_neg h1]
      by_cases h2 : c.1 = m
      · simp [findCol, h2]
      · simp only [findCol, if_neg h2]
        exact ih

theorem findCol_append_single_ne (df : DataFrame) (n m : String)
    (v : List PValue) (hnm : m ≠ n) :
    findCol (df ++ [(n, v)]) m = findCol df m := by
  induction df with
  | nil => simp [findCol, Ne.symm hnm]
  | cons c rest ih =>
    by_cases h : c.1 = m
    · simp [findCol, h]
    · simp [findCol, h, ih]

theorem findCol_append_single_self (df : DataFrame) (n : String)
    (v : List PValue) (h : n ∉ colNames df) :
    findCol (df ++ [(n, v)]) n = some v := by
  induction df with
  | nil => simp [findCol]
  | cons c rest ih =>
    simp only [colNames, List.map_cons, List.mem_cons, not_or] at h
    simp [findCol, Ne.symm h.1, ih h.2]

theorem colNames_mapAt (df : DataFrame) (n : String)
    (G : String × List PValue → String × List PValue)
    (hG : ∀ p, (G p).1 = p.1) :
    colNames (mapAtCol df n G) = colNames df := by
  induction df with
  | nil => rfl
  | cons c rest ih =>
    by_cases h : c.1 = n
    · simp only [mapAtCol, List.map_cons, if_pos h, colNames, hG]
      simpa [colNames, mapAtCol] using ih
    · simp only [mapAtCol, List.map_cons, if_neg h, colNames]
      simpa [colNames, mapAtCol] using ih

theorem getColVals_transformCol_self (df : DataFrame) (n : String)
    (f : PValue → PValue) :
    getColVals (transformCol df n f) n = (getColVals df n).map f := by
  unfold transformCol
  by_cases h : n ∈ colNames df
  · rw [if_pos h]
    unfold getColVals
    rw [findCol_mapAt_self df n (fun c => (c.1, c.2.map f)) (fun l => l.map f) (fun p => rfl)]
    cases findCol df n <;> simp
  · rw [if_neg h]
    unfold getColVals
    rw [findCol_eq_none_of_not_mem df n h]
    rfl

theorem getColVals_transformCol_ne (df : DataFrame) (n m : String)
    (f : PValue → PValue) (hnm : m ≠ n) :
    getColVals (transformCol df n f) m = getColVals df m := by
  unfold transformCol
  by_cases h : n ∈ colNames df
  · rw [if_pos h]
    unfold getColVals
    rw [findCol_mapAt_ne df n m (fun c => (c.1, c.2.map f)) (fun p => rfl) hnm]
  · rw [if_neg h]

theorem getColVals_foldlTransform_not_mem (l : List String) (f : PValue → PValue)
    (m : String) (hm : m ∉ l) :
    ∀ df : DataFrame,
      getColVals (l.foldl (fun d c => transformCol d c f) df) m = getColVals df m := by
  induction l with
  | nil => intro df; rfl
  | cons c rest ih =>
    intro df
    simp only [List.mem_cons, not_or] at hm
    simp only [List.foldl_cons]
    rw [ih hm.2, getColVals_transformCol_ne df c m f hm.1]

theorem getColVals_foldlTransform_mem (l : List String) (f : PValue → PValue)
    (m : String) (hm : m ∈ l) (hnd : l.Nodup) :
    ∀ df : DataFrame,
      getColVals (l.foldl (fun d c => transformCol d c f) df) m =
        (getColVals df m).map f := by
  induction l with
  | nil => simp at hm
  | cons c rest ih =>
    intro df
    simp only [List.foldl_cons]
    rcases List.mem_cons.mp hm with h | h
    · subst h
      have hnotin : m ∉ rest := (List.nodup_cons.mp hnd).1
      rw [getColVals_foldlTransform_not_mem rest f m hnotin,
        getColVals_transformCol_self]
    · have hmc : m ≠ c := by
        rintro rfl
        exact (List.nodup_cons.mp hnd).1 h
      rw [ih h (List.nodup_cons.mp hnd).2,
        getColVals_transformCol_ne df c m f hmc]

theorem getColVals_setScalarCol_ne (df : DataFrame) (n m : String) (v : PValue)
    (hnm : m ≠ n) :
    getColVals (setScalarCol df n v) m = getColVals df m := by
  unfold setScalarCol
  by_cases h : n ∈ colNames df
  · rw [if_pos h]
    unfold getColVals
    rw [findCol_mapAt_ne df n m (fun c => (c.1, List.replicate c.2.length v)) (fun p => rfl) hnm]
  · rw [if_neg h]
    unfold getColVals
    rw [findCol_append_single_ne df n m _ hnm]

theorem mem_getColVals_setScalarCol_self (df : DataFrame) (n : String) (v : PValue) :
    ∀ x ∈ getColVals (setScalarCol df n v) n, x = v := by
  unfold setScalarCol
  by_cases h : n ∈ colNames df
  · rw [if_pos h]
    unfold getColVals
    rw [findCol_mapAt_self df n (fun c => (c.1, List.replicate c.2.length v)) (fun l => List.replicate l.length v) (fun p => rfl)]
    rcases findCol df n with _ | w
    · intro x hx
      simp at hx
    · intro x hx
      have hx2 : ¬ w = [] ∧ x = v := by simpa using hx
      exact hx2.2
  · rw [if_neg h]
    unfold getColVals
    rw [findCol_append_single_self df n _ h]
    intro x hx
    exact List.eq_of_mem_replicate hx

theorem colNames_setScalarCol (df : DataFrame) (n : String) (v : PValue) :
    colNames (setScalarCol df n v) =
      if n ∈ colNames df then colNames df else colNames df ++ [n] := by
  unfold setScalarCol
  by_cases h : n ∈ colNames df
  · rw [if_pos h, if_pos h, colNames_mapAt df n (fun c => (c.1, List.replicate c.2.length v)) (fun p => rfl)]
  · rw [if_neg h, if_neg h]
    simp only [colNames, List.map_append, List.map_cons, List.map_nil]

theorem mem_colNames_setScalarCol_self (df : DataFrame) (n : String) (v : PValue) :
    n ∈ colNames (setScalarCol df n v) := by
  rw [colNames_setScalarCol]
  by_cases h : n ∈ colNames df
  · simp [h]
  · simp [h]

theorem mem_colNames_setScalarCol_of_mem (df : DataFrame) (n m : String) (v : PValue)
    (h : m ∈ colNames df) : m ∈ colNames (setScalarCol df n v) := by
  rw [colNames_setScalarCol]
  by_cases h2 : n ∈ colNames df <;> simp [h2, h]

theorem colNames_transformCol (df : DataFrame) (n : String) (f : PValue → PValue) :
    colNames (transformCol df n f) = colNames df := by
  unfold transformCol
  by_cases h : n ∈ colNames df
  · rw [if_pos h, colNames_mapAt df n (fun c => (c.1, c.2.map f)) (fun p => rfl)]
  · rw [if_neg h]

theorem colNames_foldlTransform (l : List String) (f : PValue → PValue) :
    ∀ df : DataFrame,
      colNames (l.foldl (fun d c => transformCol d c f) df) = colNames df := by
  induction l with
  | nil => intro df; rfl
  | cons c rest ih =>
    intro df
    simp only [List.foldl_cons]
    rw [ih, colNames_transformCol]

theorem colNames_renameCols (mapping : List (String × String)) (df : DataFrame) :
    colNames (renameCols mapping df) = (colNames df).map (applyMapping mapping) := by
  simp [colNames, renameCols, List.map_map]

/-! ### Frame-store lemmas -/

theorem hlookup_cons_ne (h : Heap) (rp r : Nat) (d : DataFrame) (hne : r ≠ rp) :
    hlookup ((rp, d) :: h) r = hlookup h r := by
  simp [hlookup, Ne.symm hne]

theorem hlookup_hset_ne (h : Heap) (k r : Nat) (d : DataFrame) (hne : r ≠ k) :
    hlookup (hset h k d) r = hlookup h r := by
  induction h with
  | nil => rfl
  | cons p rest ih =>
    by_cases h1 : p.1 = k
    · simp only [hset, List.map_cons, if_pos h1, hlookup, if_neg (Ne.symm hne)]
      rw [if_neg (h1 ▸ Ne.symm hne)]
      exact ih
    · simp only [hset, List.map_cons, if_neg h1, hlookup]
      by_cases h2 : p.1 = r
      · simp [h2]
      · simp only [if_neg h2]
        exact ih

theorem hlookup_hset_self (h : Heap) (k : Nat) (d : DataFrame)
    (hk : k ∈ h.map Prod.fst) : hlookup (hset h k d) k = some d := by
  induction h with
  | nil => simp at hk
  | cons p rest ih =>
    by_cases h1 : p.1 = k
    · simp [hset, hlookup, h1]
    · simp only [List.map_cons, List.mem_cons] at hk
      rcases hk with hk | hk
      · exact absurd hk.symm h1
      · simp only [hset, List.map_cons, if_neg h1, hlookup, if_neg h1]
        exact ih hk

theorem hset_keys (h : Heap) (k : Nat) (d : DataFrame) :
    (hset h k d).map Prod.fst = h.map Prod.fst := by
  induction h with
  | nil => rfl
  | cons p rest ih =>
    by_cases h1 : p.1 = k
    · simp only [hset, List.map_cons, if_pos h1] at ih ⊢
      rw [ih, h1]
    · simp only [hset, List.map_cons, if_neg h1] at ih ⊢
      rw [ih]

theorem le_foldl_max (l : List Nat) : ∀ init : Nat, init ≤ l.foldl max init := by
  induction l with
  | nil => intro init; exact Nat.le_refl _
  | cons x rest ih =>
    intro init
    exact Nat.le_trans (Nat.le_max_left init x) (ih (max init x))

theorem mem_le_foldl_max (l : List Nat) (x : Nat) (hx : x ∈ l) :
    ∀ init : Nat, x ≤ l.foldl max init := by
  induction l with
  | nil => simp at hx
  | cons y rest ih =>
    intro init
    simp only [List.foldl_cons]
    rcases List.mem_cons.mp hx with h | h
    · subst h
      exact Nat.le_trans (Nat.le_max_right init x) (le_foldl_max rest (max init x))
    · exact ih h (max init y)

theorem mem_keys_lt_freshRef (h : Heap) (k : Nat) (hk : k ∈ h.map Prod.fst) :
    k < freshRef h := by
  unfold freshRef
  exact Nat.lt_succ_of_le (mem_le_foldl_max _ k hk 0)

theorem applyStepsHeap_lookup_ne (rp r : Nat) (hne : r ≠ rp) :
    ∀ (steps : List (DataFrame → DataFrame)) (hh : Heap),
      hlookup (applyStepsHeap rp steps hh) r = hlookup hh r := by
  intro steps
  induction steps with
  | nil => intro hh; rfl
  | cons f rest ih =>
    intro hh
    simp only [applyStepsHeap]
    rw [ih, hlookup_hset_ne _ _ _ _ hne]

theorem applyStepsHeap_get_self (rp : Nat) :
    ∀ (steps : List (DataFrame → DataFrame)) (hh : Heap), rp ∈ hh.map Prod.fst →
      hgetD (applyStepsHeap rp steps hh) rp =
        steps.foldl (fun d f => f d) (hgetD hh rp) := by
  intro steps
  induction steps with
  | nil => intro hh _; rfl
  | cons f rest ih =>
    intro hh hmem
    simp only [applyStepsHeap, List.foldl_cons]
    rw [ih _ (by rw [hset_keys]; exact hmem)]
    have hg : hgetD (hset hh rp (f (hgetD hh rp))) rp = f (hgetD hh rp) := by
      unfold hgetD
      rw [hlookup_hset_self _ _ _ hmem]
      rfl
    rw [hg]

/-! ### Chunking lemmas -/

theorem chunkLensAux_fuel_irrel (B : Nat) (hB : 0 < B) :
    ∀ fuel1 fuel2 n : Nat, n ≤ fuel1 → n ≤ fuel2 →
      chunkLensAux B fuel1 n = chunkLensAux B fuel2 n := by
  intro fuel1
  induction fuel1 with
  | zero =>
    intro fuel2 n h1 h2
    interval_cases n
    cases fuel2 <;> rfl
  | succ f ih =>
    intro fuel2 n h1 h2
    cases n with
    | zero => cases fuel2 <;> rfl
    | succ m =>
      cases fuel2 with
      | zero => omega
      | succ f2 =>
        simp only [chunkLensAux]
        rw [ih f2 (m + 1 - B) (by omega) (by omega)]

theorem chunkLens_pos_step (B n : Nat) (hB : 0 < B) (hn : 0 < n) :
    chunkLens B n = min B n :: chunkLens B (n - B) := by
  unfold chunkLens
  rcases n with _ | m
  · omega
  · simp only [chunkLensAux]
    rw [chunkLensAux_fuel_irrel B hB m (m + 1 - B) (m + 1 - B) (by omega) (by omega)]

theorem chunkLens_zero (B : Nat) : chunkLens B 0 = [] := rfl

theorem chunks_nil (B : Nat) : chunks B [] = [] := by
  rw [chunks]

theorem chunks_cons (B : Nat) (x : Row) (xs : List Row) :
    chunks B (x :: xs) = (x :: xs.take (B - 1)) :: chunks B (xs.drop (B - 1)) := by
  rw [chunks]

theorem chunks_map_length (B : Nat) (hB : 0 < B) :
    ∀ (n : Nat) (l : List Row), l.length ≤ n →
      (chunks B l).map List.length = chunkLens B l.length := by
  intro n
  induction n with
  | zero =>
    intro l hl
    have h0 : l = [] := List.length_eq_zero.mp (by omega)
    subst h0
    rw [chunks_nil]
    rfl
  | succ m ih =>
    intro l hl
    cases l with
    | nil =>
      rw [chunks_nil]
      rfl
    | cons x xs =>
      have hl2 : xs.length ≤ m := by
        simp only [List.length_cons] at hl
        omega
      rw [chunks_cons, List.map_cons,
        ih (xs.drop (B - 1)) (by simp only [List.length_drop]; omega),
        chunkLens_pos_step B (x :: xs).length hB (by simp)]
      simp only [List.length_cons, List.length_take, List.length_drop]
      congr 1
      · omega
      · congr 1
        omega

theorem chunks_flatten (B : Nat) :
    ∀ (n : Nat) (l : List Row), l.length ≤ n → (chunks B l).flatten = l := by
  intro n
  induction n with
  | zero =>
    intro l hl
    have h0 : l = [] := List.length_eq_zero.mp (by omega)
    subst h0
    rw [chunks_nil]
    rfl
  | succ m ih =>
    intro l hl
    cases l with
    | nil =>
      rw [chunks_nil]
      rfl
    | cons x xs =>
      have hl2 : xs.length ≤ m := by
        simp only [List.length_cons] at hl
        omega
      rw [chunks_cons, List.flatten_cons,
        ih (xs.drop (B - 1)) (by simp only [List.length_drop]; omega)]
      simp [List.take_append_drop]

theorem mem_chunkLens_le (B : Nat) :
    ∀ fuel n : Nat, ∀ x ∈ chunkLensAux B fuel n, x ≤ B := by
  intro fuel
  induction fuel with
  | zero =>
    intro n x hx
    cases n <;> simp [chunkLensAux] at hx
  | succ f ih =>
    intro n x hx
    cases n with
    | zero => simp [chunkLensAux] at hx
    | succ m =>
      simp only [chunkLensAux, List.mem_cons] at hx
      rcases hx with hx | hx
      · omega
      · exact ih _ x hx

theorem chunkLens_length (B : Nat) (hB : 0 < B) :
    ∀ (fuel n : Nat), n ≤ fuel → (chunkLens B n).length = (n + B - 1) / B := by
  intro fuel
  induction fuel with
  | zero =>
    intro n hn
    interval_cases n
    have h1 : (B - 1) / B = 0 := Nat.div_eq_of_lt (by omega)
    simp [chunkLens_zero, h1]
  | succ f ih =>
    intro n hn
    rcases Nat.eq_zero_or_pos n with h0 | hpos
    · subst h0
      have h1 : (B - 1) / B = 0 := Nat.div_eq_of_lt (by omega)
      simp [chunkLens_zero, h1]
    · rw [chunkLens_pos_step B n hB hpos, List.length_cons, ih (n - B) (by omega)]
      rcases Nat.lt_or_ge n B with hlt | hge
      · have h1 : n - B = 0 := by omega
        rw [h1]
        have h2 : (0 + B - 1) / B = 0 := Nat.div_eq_of_lt (by omega)
        have h3 : (n + B - 1) / B = 1 := Nat.div_eq_of_lt_le (by omega) (by omega)
        omega
      · have h1 : n + B - 1 = (n - B + B - 1) + B := by omega
        rw [h1, Nat.add_div_right _ hB]

theorem foldl_append_flatten (L : List (List Row)) :
    ∀ acc : List Row, L.foldl (fun t b => t ++ b) acc = acc ++ L.flatten := by
  induction L with
  | nil => intro acc; simp
  | cons x rest ih =>
    intro acc
    simp only [List.foldl_cons, ih, List.flatten_cons, List.append_assoc]

theorem prepareDataForDb_eq (now : Nat → Nat) (df : DataFrame) :
    prepareDataForDb now df =
      setScalarCol
        (setScalarCol
          (setScalarCol
            (stringColumns.foldl (fun d c => transformCol d c cleanString)
              (numericColumns.foldl (fun d c => transformCol d c toNumericCoerce)
                (dateColumns.foldl (fun d c => transformCol d c toDatetimeCoerce)
                  (renameCols columnMapping df))))
            "imported_at" (PValue.vtime (now 0)))
          "created_at" (PValue.vtime (now 1)))
        "updated_at" (PValue.vtime (now 2)) := rfl

/-! ### Schema-provisioning lemmas -/

theorem createIndexesLoop_tables (fails : String → Bool) (table : String) :
    ∀ (l : List IndexSpec) (σ σ2 : DbState),
      createIndexesLoop fails table l σ = Except.ok σ2 → σ2.tables = σ.tables := by
  intro l
  induction l with
  | nil =>
    intro σ σ2 h
    cases h
    rfl
  | cons i rest ih =>
    intro σ σ2 h
    by_cases h1 : (table, i.name) ∈ σ.indexes
    · rw [createIndexesLoop, if_pos h1] at h
      exact ih _ _ h
    · by_cases h2 : fails i.name
      · rw [createIndexesLoop, if_neg h1, if_pos h2] at h
        cases h
      · rw [createIndexesLoop, if_neg h1, if_neg h2] at h
        exact ih (DbState.mk σ.tables (σ.indexes ++ [(table, i.name)])) σ2 h

theorem createIndexesLoop_mono (fails : String → Bool) (table : String) :
    ∀ (l : List IndexSpec) (σ σ2 : DbState),
      createIndexesLoop fails table l σ = Except.ok σ2 →
      ∀ x ∈ σ.indexes, x ∈ σ2.indexes := by
  intro l
  induction l with
  | nil =>
    intro σ σ2 h
    cases h
    exact fun x hx => hx
  | cons i rest ih =>
    intro σ σ2 h x hx
    by_cases h1 : (table, i.name) ∈ σ.indexes
    · rw [createIndexesLoop, if_pos h1] at h
      exact ih _ _ h x hx
    · by_cases h2 : fails i.name
      · rw [createIndexesLoop, if_neg h1, if_pos h2] at h
        cases h
      · rw [createIndexesLoop, if_neg h1, if_neg h2] at h
        exact ih (DbState.mk σ.tables (σ.indexes ++ [(table, i.name)])) σ2 h x
          (List.mem_append_left _ hx)

theorem createIndexesLoop_idem (fails : String → Bool) (table : String) :
    ∀ (l : List IndexSpec) (σ σ2 : DbState),
      createIndexesLoop fails table l σ = Except.ok σ2 →
      createIndexesLoop fails table l σ2 = Except.ok σ2 := by
  intro l
  induction l with
  | nil =>
    intro σ σ2 h
    cases h
    rfl
  | cons i rest ih =>
    intro σ σ2 h
    by_cases h1 : (table, i.name) ∈ σ.indexes
    · rw [createIndexesLoop, if_pos h1] at h
      have hmem : (table, i.name) ∈ σ2.indexes :=
        createIndexesLoop_mono fails table rest σ σ2 h _ h1
      rw [createIndexesLoop, if_pos hmem]
      exact ih _ _ h
    · by_cases h2 : fails i.name
      · rw [createIndexesLoop, if_neg h1, if_pos h2] at h
        cases h
      · rw [createIndexesLoop, if_neg h1, if_neg h2] at h
        have hmem : (table, i.name) ∈ σ2.indexes :=
          createIndexesLoop_mono fails table rest _ σ2 h _
            (List.mem_append_right _ (List.mem_singleton.mpr rfl))
        rw [createIndexesLoop, if_pos hmem]
        exact ih _ _ h

theorem create_indexes_of_ok (fails : String → Bool) (cfg : TableConfig)
    (σ σ2 : DbState)
    (h : createIndexesLoop fails cfg.table_name cfg.indexes σ = Except.ok σ2) :
    create_indexes fails cfg σ = σ2 := by
  unfold create_indexes
  rw [h]

theorem create_indexes_of_error (fails : String → Bool) (cfg : TableConfig)
    (σ : DbState) (e : String)
    (h : createIndexesLoop fails cfg.table_name cfg.indexes σ = Except.error e) :
    create_indexes fails cfg σ = σ := by
  unfold create_indexes
  rw [h]

theorem create_indexes_tables (fails : String → Bool) (cfg : TableConfig)
    (σ : DbState) : (create_indexes fails cfg σ).tables = σ.tables := by
  rcases hE : createIndexesLoop fails cfg.table_name cfg.indexes σ with e | σ2
  · rw [create_indexes_of_error fails cfg σ e hE]
  · rw [create_indexes_of_ok fails cfg σ σ2 hE]
    exact createIndexesLoop_tables fails cfg.table_name cfg.indexes σ σ2 hE

theorem create_indexes_idem (fails : String → Bool) (cfg : TableConfig)
    (σ : DbState) :
    create_indexes fails cfg (create_indexes fails cfg σ) =
      create_indexes fails cfg σ := by
  rcases hE : createIndexesLoop fails cfg.table_name cfg.indexes σ with e | σ2
  · rw [create_indexes_of_error fails cfg σ e hE,
      create_indexes_of_error fails cfg σ e hE]
  · rw [create_indexes_of_ok fails cfg σ σ2 hE]
    exact create_indexes_of_ok fails cfg σ2 σ2
      (createIndexesLoop_idem fails cfg.table_name cfg.indexes σ σ2 hE)

theorem execCreate_mem (σ : DbState) (name sql : String) :
    name ∈ (execCreateTableIfNotExists σ name sql).tables.map Prod.fst := by
  unfold execCreateTableIfNotExists
  by_cases h : name ∈ σ.tables.map Prod.fst
  · rw [if_pos h]
    exact h
  · rw [if_neg h]
    simp

theorem execCreate_of_mem (σ : DbState) (name sql : String)
    (h : name ∈ σ.tables.map Prod.fst) :
    execCreateTableIfNotExists σ name sql = σ := by
  unfold execCreateTableIfNotExists
  rw [if_pos h]

theorem create_table_state (fails : String → Bool) (cfg : TableConfig)
    (σ : DbState) :
    (create_table fails cfg σ).1 =
      create_indexes fails cfg
        (execCreateTableIfNotExists σ cfg.table_name (buildCreateSql cfg)) := rfl

theorem prepSteps_foldl (now : Nat → Nat) (df : DataFrame) :
    (prepSteps now).foldl (fun d f => f d) df = prepareDataForDb now df := by
  rw [prepareDataForDb_eq]
  simp only [prepSteps, List.foldl_cons, List.foldl_nil]

/-! ## The claims -/

/-- C1, counterexample to the claim as stated: record preparation does
not drop source columns whose header is outside the fixed mapping.  A
frame with the single unmapped column `Extra` prepares to a frame that
still contains `Extra`, a column outside the target column names plus
the three timestamp columns. -/
theorem C1_counterexample :
    ¬ (∀ c ∈ colNames (prepareDataForDb (fun i => i) [("Extra", [PValue.vstr "x"])]),
        c ∈ targetColumnNames ∨ c ∈ metaColumns) := by decide

/-- C1 (amended): record preparation renames source headers to target
column names per the fixed mapping, and keeps every unmapped source
column under its original name; provided none of the renamed headers
collides with a timestamp column, the prepared columns are exactly the
renamed source columns followed by the three timestamp columns. -/
theorem C1_rename_keeps_unmapped (now : Nat → Nat) (df : DataFrame)
    (h : ∀ m ∈ metaColumns, m ∉ (colNames df).map (applyMapping columnMapping)) :
    colNames (prepareDataForDb now df) =
      (colNames df).map (applyMapping columnMapping) ++ metaColumns := by
  have hi := h "imported_at" (by decide)
  have hc := h "created_at" (by decide)
  have hu := h "updated_at" (by decide)
  rw [prepareDataForDb_eq]
  have hD3 : colNames
      (stringColumns.foldl (fun d c => transformCol d c cleanString)
        (numericColumns.foldl (fun d c => transformCol d c toNumericCoerce)
          (dateColumns.foldl (fun d c => transformCol d c toDatetimeCoerce)
            (renameCols columnMapping df)))) =
      (colNames df).map (applyMapping columnMapping) := by
    rw [colNames_foldlTransform, colNames_foldlTransform, colNames_foldlTransform,
      colNames_renameCols]
  have hA : colNames
      (setScalarCol
        (stringColumns.foldl (fun d c => transformCol d c cleanString)
          (numericColumns.foldl (fun d c => transformCol d c toNumericCoerce)
            (dateColumns.foldl (fun d c => transformCol d c toDatetimeCoerce)
              (renameCols columnMapping df))))
        "imported_at" (PValue.vtime (now 0))) =
      (colNames df).map (applyMapping columnMapping) ++ ["imported_at"] := by
    rw [colNames_setScalarCol, hD3, if_neg hi]
  have hcA : "created_at" ∉
      (colNames df).map (applyMapping columnMapping) ++ ["imported_at"] := by
    intro hmem
    rcases List.mem_append.mp hmem with hm | hm
    · exact hc hm
    · exact absurd (List.mem_singleton.mp hm) (by decide)
  have hB : colNames
      (setScalarCol
        (setScalarCol
          (stringColumns.foldl (fun d c => transformCol d c cleanString)
            (numericColumns.foldl (fun d c => transformCol d c toNumericCoerce)
              (dateColumns.foldl (fun d c => transformCol d c toDatetimeCoerce)
                (renameCols columnMapping df))))
          "imported_at" (PValue.vtime (now 0)))
        "created_at" (PValue.vtime (now 1))) =
      ((colNames df).map (applyMapping columnMapping) ++ ["imported_at"]) ++
        ["created_at"] := by
    rw [colNames_setScalarCol, hA, if_neg hcA]
  have huB : "updated_at" ∉
      ((colNames df).map (applyMapping columnMapping) ++ ["imported_at"]) ++
        ["created_at"] := by
    intro hmem
    rcases List.mem_append.mp hmem with hm | hm
    · rcases List.mem_append.mp hm with hm2 | hm2
      · exact hu hm2
      · exact absurd (List.mem_singleton.mp hm2) (by decide)
    · exact absurd (List.mem_singleton.mp hm) (by decide)
  rw [colNames_setScalarCol, hB, if_neg huB]
  simp [metaColumns, List.append_assoc]

/-- C1 witness: a concrete frame with a mapped header `S.no` and an
unmapped header `Extra` prepares to the renamed column, the retained
unmapped column, and the three timestamp columns. -/
theorem C1_rename_keeps_unmapped_witness :
    colNames (prepareDataForDb (fun i => i)
        [("S.no", [PValue.vstr "1"]), ("Extra", [PValue.vstr "x"])]) =
      ["serial_number", "Extra", "imported_at", "created_at", "updated_at"] := by
  rw [C1_rename_keeps_unmapped (fun i => i)
    [("S.no", [PValue.vstr "1"]), ("Extra", [PValue.vstr "x"])] (by decide)]
  decide

/-- C3, counterexample to the claim as stated: the method calls
`pd.Timestamp.now()` once per metadata column, so under a clock whose
consecutive readings differ, `imported_at` and `created_at` receive
different timestamps — not one identical snapshot across the three
fields. -/
theorem C3_counterexample :
    ¬ (getColVals (prepareDataForDb (fun i => i) [("Status", [PValue.vstr "ok"])])
          "imported_at" =
        getColVals (prepareDataForDb (fun i => i) [("Status", [PValue.vstr "ok"])])
          "created_at") := by decide

/-- C3 (amended): each of `imported_at`, `created_at`, `updated_at` is
stamped from its own `pd.Timestamp.now()` call (the first, second and
third reading of the clock respectively); within each field the value is
one scalar shared by every record of the invocation — a single snapshot
per field, not per-row — but the three fields need not coincide. -/
theorem C3_meta_stamps (now : Nat → Nat) (df : DataFrame) :
    ("imported_at" ∈ colNames (prepareDataForDb now df)
      ∧ ∀ x ∈ getColVals (prepareDataForDb now df) "imported_at",
          x = PValue.vtime (now 0))
  ∧ ("created_at" ∈ colNames (prepareDataForDb now df)
      ∧ ∀ x ∈ getColVals (prepareDataForDb now df) "created_at",
          x = PValue.vtime (now 1))
  ∧ ("updated_at" ∈ colNames (prepareDataForDb now df)
      ∧ ∀ x ∈ getColVals (prepareDataForDb now df) "updated_at",
          x = PValue.vtime (now 2)) := by
  rw [prepareDataForDb_eq]
  refine ⟨⟨?_, ?_⟩, ⟨?_, ?_⟩, ⟨?_, ?_⟩⟩
  · exact mem_colNames_setScalarCol_of_mem _ _ _ _
      (mem_colNames_setScalarCol_of_mem _ _ _ _
        (mem_colNames_setScalarCol_self _ _ _))
  · rw [getColVals_setScalarCol_ne _ _ _ _ (by decide),
      getColVals_setScalarCol_ne _ _ _ _ (by decide)]
    exact mem_getColVals_setScalarCol_self _ _ _
  · exact mem_colNames_setScalarCol_of_mem _ _ _ _
      (mem_colNames_setScalarCol_self _ _ _)
  · rw [getColVals_setScalarCol_ne _ _ _ _ (by decide)]
    exact mem_getColVals_setScalarCol_self _ _ _
  · exact mem_colNames_setScalarCol_self _ _ _
  · exact mem_getColVals_setScalarCol_self _ _ _

/-- C4: every textual target column of a prepared frame is the renamed
source column passed cell-wise through `cleanString` (stringify, trim
surrounding whitespace, exact post-trim `"nan"` to null); any string
whose trim is the literal `nan` cleans to null; and the spec's scenario
row transforms exactly as stated, serial_number 7, status null,
farmer_code `FC9`. -/
theorem C4_textual_trim_nan :
    (∀ (now : Nat → Nat) (df : DataFrame) (c : String), c ∈ stringColumns →
      getColVals (prepareDataForDb now df) c =
        (getColVals (renameCols columnMapping df) c).map cleanString)
  ∧ (∀ s : String, pyStrip s = "nan" → cleanString (PValue.vstr s) = PValue.vnull)
  ∧ prepareDataForDb (fun i => 100 + i)
      [("S.no", [PValue.vstr "7"]),
       ("Status", [PValue.vstr "nan"]),
       ("Farmer Code", [PValue.vstr "  FC9  "])] =
      [("serial_number", [PValue.vnum 7]),
       ("status", [PValue.vnull]),
       ("farmer_code", [PValue.vstr "FC9"]),
       ("imported_at", [PValue.vtime 100]),
       ("created_at", [PValue.vtime 101]),
       ("updated_at", [PValue.vtime 102])] := by
  refine ⟨?_, ?_, by decide⟩
  · intro now df c hc
    rw [prepareDataForDb_eq]
    fin_cases hc <;>
      rw [getColVals_setScalarCol_ne _ _ _ _ (by decide),
        getColVals_setScalarCol_ne _ _ _ _ (by decide),
        getColVals_setScalarCol_ne _ _ _ _ (by decide),
        getColVals_foldlTransform_mem stringColumns cleanString _ (by decide) (by decide),
        getColVals_foldlTransform_not_mem numericColumns toNumericCoerce _ (by decide),
        getColVals_foldlTransform_not_mem dateColumns toDatetimeCoerce _ (by decide)]
  · intro s h
    simp [cleanString, pvalToStr, h]

/-- C4 witness: the textual-column equation instantiated on a concrete
frame at `farmer_code`, and the trim-to-`nan` rule at the concrete
string `" nan "`. -/
theorem C4_textual_trim_nan_witness :
    getColVals (prepareDataForDb (fun i => i)
        [("Status", [PValue.vstr "  nan "]), ("Farmer Code", [PValue.vstr " FC9 "])])
        "farmer_code" =
      (getColVals (renameCols columnMapping
          [("Status", [PValue.vstr "  nan "]), ("Farmer Code", [PValue.vstr " FC9 "])])
          "farmer_code").map cleanString
  ∧ cleanString (PValue.vstr " nan ") = PValue.vnull := by
  constructor
  · exact C4_textual_trim_nan.1 (fun i => i)
      [("Status", [PValue.vstr "  nan "]), ("Farmer Code", [PValue.vstr " FC9 "])]
      "farmer_code" (by decide)
  · exact C4_textual_trim_nan.2.1 " nan " (by decide)

/-- C5: the dated and numeric coercions of record preparation are total.
Each dated (resp. numeric) target column of a prepared frame is the
renamed source column passed cell-wise through the coercing converter;
a value whose strict conversion would raise coerces to null instead
(in particular an unparsable or empty string, and a missing value),
so the transformation never raises. -/
theorem C5_coercion_total :
    (∀ (now : Nat → Nat) (df : DataFrame) (c : String), c ∈ dateColumns →
      getColVals (prepareDataForDb now df) c =
        (getColVals (renameCols columnMapping df) c).map toDatetimeCoerce)
  ∧ (∀ (now : Nat → Nat) (df : DataFrame) (c : String), c ∈ numericColumns →
      getColVals (prepareDataForDb now df) c =
        (getColVals (renameCols columnMapping df) c).map toNumericCoerce)
  ∧ (∀ (v : PValue) (e : String), toDatetimeStrict v = Except.error e →
      toDatetimeCoerce v = PValue.vnull)
  ∧ (∀ (v : PValue) (e : String), toNumericStrict v = Except.error e →
      toNumericCoerce v = PValue.vnull)
  ∧ (∀ s : String, parseYMD s = none → toDatetimeCoerce (PValue.vstr s) = PValue.vnull)
  ∧ (∀ s : String, parseNum s = none → toNumericCoerce (PValue.vstr s) = PValue.vnull)
  ∧ toDatetimeCoerce (PValue.vstr "") = PValue.vnull
  ∧ toDatetimeCoerce PValue.vnull = PValue.vnull
  ∧ toNumericCoerce PValue.vnull = PValue.vnull := by
  refine ⟨?_, ?_, ?_, ?_, ?_, ?_, by decide, by decide, by decide⟩
  · intro now df c hc
    rw [prepareDataForDb_eq]
    fin_cases hc <;>
      rw [getColVals_setScalarCol_ne _ _ _ _ (by decide),
        getColVals_setScalarCol_ne _ _ _ _ (by decide),
        getColVals_setScalarCol_ne _ _ _ _ (by decide),
        getColVals_foldlTransform_not_mem stringColumns cleanString _ (by decide),
        getColVals_foldlTransform_not_mem numericColumns toNumericCoerce _ (by decide),
        getColVals_foldlTransform_mem dateColumns toDatetimeCoerce _ (by decide) (by decide)]
  · intro now df c hc
    rw [prepareDataForDb_eq]
    fin_cases hc <;>
      rw [getColVals_setScalarCol_ne _ _ _ _ (by decide),
        getColVals_setScalarCol_ne _ _ _ _ (by decide),
        getColVals_setScalarCol_ne _ _ _ _ (by decide),
        getColVals_foldlTransform_not_mem stringColumns cleanString _ (by decide),
        getColVals_foldlTransform_mem numericColumns toNumericCoerce _ (by decide) (by decide),
        getColVals_foldlTransform_not_mem dateColumns toDatetimeCoerce _ (by decide)]
  · intro v e h
    unfold toDatetimeCoerce
    rw [h]
  · intro v e h
    unfold toNumericCoerce
    rw [h]
  · intro s h
    simp [toDatetimeCoerce, toDatetimeStrict, h]
  · intro s h
    simp [toNumericCoerce, toNumericStrict, h]

/-- C5 witness: the coercion equations instantiated on a concrete frame
at `sync_date` and `area`, plus the null outcomes at concrete unparsable
inputs. -/
theorem C5_coercion_total_witness :
    getColVals (prepareDataForDb (fun i => i)
        [("Sync Date", [PValue.vstr "garbage", PValue.vstr "2023-04-01", PValue.vnull]),
         ("Area", [PValue.vstr "2", PValue.vstr "x7", PValue.vnull])])
        "sync_date" =
      (getColVals (renameCols columnMapping
          [("Sync Date", [PValue.vstr "garbage", PValue.vstr "2023-04-01", PValue.vnull]),
           ("Area", [PValue.vstr "2", PValue.vstr "x7", PValue.vnull])])
          "sync_date").map toDatetimeCoerce
  ∧ getColVals (prepareDataForDb (fun i => i)
        [("Sync Date", [PValue.vstr "garbage", PValue.vstr "2023-04-01", PValue.vnull]),
         ("Area", [PValue.vstr "2", PValue.vstr "x7", PValue.vnull])])
        "area" =
      (getColVals (renameCols columnMapping
          [("Sync Date", [PValue.vstr "garbage", PValue.vstr "2023-04-01", PValue.vnull]),
           ("Area", [PValue.vstr "2", PValue.vstr "x7", PValue.vnull])])
          "area").map toNumericCoerce
  ∧ toDatetimeCoerce (PValue.vstr "garbage") = PValue.vnull
  ∧ toNumericCoerce (PValue.vstr "x7") = PValue.vnull
  ∧ toDatetimeCoerce (PValue.vstr "not-a-date") = PValue.vnull
  ∧ toNumericCoerce (PValue.vstr "12ab") = PValue.vnull := by
  refine ⟨?_, ?_, ?_, ?_, ?_, ?_⟩
  · exact C5_coercion_total.1 (fun i => i) _ "sync_date" (by decide)
  · exact C5_coercion_total.2.1 (fun i => i) _ "area" (by decide)
  · exact C5_coercion_total.2.2.1 (PValue.vstr "garbage") "garbage" rfl
  · exact C5_coercion_total.2.2.2.1 (PValue.vstr "x7") "x7" rfl
  · exact C5_coercion_total.2.2.2.2.1 "not-a-date" (by decide)
  · exact C5_coercion_total.2.2.2.2.2.1 "12ab" (by decide)

/-- C9: record preparation is effect-free on its input.  Against the
frame store, the method copies the caller's frame into a fresh slot and
mutates only that slot, so the caller's reference still dereferences to
the original frame afterwards, while the returned reference holds
exactly the functionally prepared frame. -/
theorem C9_prepare_effect_free (now : Nat → Nat) (h : Heap) (r : Nat)
    (hr : r ∈ h.map Prod.fst) :
    hlookup (prepareDataForDbHeap now h r).1 r = hlookup h r
  ∧ hgetD (prepareDataForDbHeap now h r).1 (prepareDataForDbHeap now h r).2 =
      prepareDataForDb now (hgetD h r) := by
  have hne : r ≠ freshRef h := Nat.ne_of_lt (mem_keys_lt_freshRef h r hr)
  constructor
  · show hlookup
      (applyStepsHeap (freshRef h) (prepSteps now) ((freshRef h, hgetD h r) :: h)) r =
      hlookup h r
    rw [applyStepsHeap_lookup_ne _ _ hne, hlookup_cons_ne _ _ _ _ hne]
  · show hgetD
      (applyStepsHeap (freshRef h) (prepSteps now) ((freshRef h, hgetD h r) :: h))
      (freshRef h) = prepareDataForDb now (hgetD h r)
    rw [applyStepsHeap_get_self _ _ _ (by simp)]
    have hg : hgetD ((freshRef h, hgetD h r) :: h) (freshRef h) = hgetD h r := by
      simp [hgetD, hlookup]
    rw [hg, prepSteps_foldl]

/-- C9 witness: on a concrete one-slot store, preparing the frame at
reference 0 leaves that slot unchanged and the fresh slot holds the
prepared frame. -/
theorem C9_prepare_effect_free_witness :
    hlookup (prepareDataForDbHeap (fun i => i)
        [(0, [("Status", [PValue.vstr " ok "])])] 0).1 0 =
      hlookup [(0, [("Status", [PValue.vstr " ok "])])] 0
  ∧ hgetD (prepareDataForDbHeap (fun i => i)
        [(0, [("Status", [PValue.vstr " ok "])])] 0).1
      (prepareDataForDbHeap (fun i => i)
        [(0, [("Status", [PValue.vstr " ok "])])] 0).2 =
      prepareDataForDb (fun i => i)
        (hgetD [(0, [("Status", [PValue.vstr " ok "])])] 0) :=
  C9_prepare_effect_free (fun i => i) [(0, [("Status", [PValue.vstr " ok "])])] 0
    (by decide)

/-- C3 witness: on a concrete two-row frame with the clock reading 5 at
the first call, the `imported_at` column exists and its first value is
the stamp of that first reading. -/
theorem C3_meta_stamps_witness :
    "imported_at" ∈ colNames (prepareDataForDb (fun i => 5 + i)
        [("Status", [PValue.vstr "ok", PValue.vstr "no"])])
  ∧ PValue.vtime 5 = PValue.vtime (5 + 0) := by
  constructor
  · exact (C3_meta_stamps (fun i => 5 + i)
      [("Status", [PValue.vstr "ok", PValue.vstr "no"])]).1.1
  · exact (C3_meta_stamps (fun i => 5 + i)
      [("Status", [PValue.vstr "ok", PValue.vstr "no"])]).1.2
      (PValue.vtime 5) (by decide)

/-- C2, counterexample to the claim as stated: one failing `CREATE
INDEX` does not leave only that index out — the exception escapes the
`for` loop, so the remaining indexes are not attempted either.  With the
demonstration configuration, `ia` fails while `ib` would succeed, yet
`ib` is absent from the resulting catalog; `create_table` still returns
success. -/
theorem C2_counterexample :
    demoFails "ia" = true
  ∧ demoFails "ib" = false
  ∧ ("t", "ib") ∉ (create_table demoFails demoCfg emptyDb).1.indexes
  ∧ (create_table demoFails demoCfg emptyDb).2 = true := by decide

/-- C2 (amended): a failure while creating one index is caught and
logged by `_create_indexes` as a whole: it aborts the remaining indexes
of the sequence and the uncommitted creations of this invocation (the
catalog stays as it was right after table creation), while
`create_table` still returns success — table creation is not aborted. -/
theorem C2_index_failure_aborts (fails : String → Bool) (cfg : TableConfig)
    (σ : DbState) :
    (create_table fails cfg σ).2 = true
  ∧ (∀ e : String,
      createIndexesLoop fails cfg.table_name cfg.indexes
          (execCreateTableIfNotExists σ cfg.table_name (buildCreateSql cfg)) =
        Except.error e →
      (create_table fails cfg σ).1 =
        execCreateTableIfNotExists σ cfg.table_name (buildCreateSql cfg)) := by
  constructor
  · rfl
  · intro e h
    rw [create_table_state]
    exact create_indexes_of_error fails cfg _ e h

/-- C2 witness: on the demonstration configuration the index loop fails
at `ia`, the resulting state is exactly the post-table-creation state,
and `create_table` reports success. -/
theorem C2_index_failure_aborts_witness :
    (create_table demoFails demoCfg emptyDb).2 = true
  ∧ (create_table demoFails demoCfg emptyDb).1 =
      execCreateTableIfNotExists emptyDb "t" (buildCreateSql demoCfg) := by
  have h := C2_index_failure_aborts demoFails demoCfg emptyDb
  exact ⟨h.1, h.2 "ia" rfl⟩

/-- C6: for every table content, record sequence and positive batch
size, the batch loader appends exactly the records to the existing rows
(never overwriting or truncating them), submits them in
`ceil(N/B)` chunks of at most `B` rows whose sizes follow the
`min B`-then-remainder pattern, and reports the number of records
submitted. -/
theorem C6_batch_load (table records : List Row) (B : Nat) (hB : 0 < B) :
    load_records table records B = (table ++ records, records.length)
  ∧ (chunks B records).length = (records.length + B - 1) / B
  ∧ (∀ ch ∈ chunks B records, ch.length ≤ B)
  ∧ (chunks B records).map List.length = chunkLens B records.length := by
  refine ⟨?_, ?_, ?_, ?_⟩
  · unfold load_records to_sql_append
    rw [foldl_append_flatten, chunks_flatten B records.length records (Nat.le_refl _)]
  · have h := chunks_map_length B hB records.length records (Nat.le_refl _)
    have h2 : (chunks B records).length = (chunkLens B records.length).length := by
      rw [← h, List.length_map]
    rw [h2, chunkLens_length B hB records.length records.length (Nat.le_refl _)]
  · intro ch hch
    have h := chunks_map_length B hB records.length records (Nat.le_refl _)
    have hmem : ch.length ∈ (chunks B records).map List.length :=
      List.mem_map_of_mem _ hch
    rw [h] at hmem
    exact mem_chunkLens_le B records.length records.length ch.length hmem
  · exact chunks_map_length B hB records.length records (Nat.le_refl _)

/-- C6 witness: the spec's scenario — 2500 records at batch size 1000
append in 3 batches of sizes 1000, 1000 and 500, with a reported count
of 2500. -/
theorem C6_batch_load_witness :
    load_records [] (List.replicate 2500 ([] : Row)) 1000 =
      (List.replicate 2500 [], 2500)
  ∧ (chunks 1000 (List.replicate 2500 ([] : Row))).length = 3
  ∧ (chunks 1000 (List.replicate 2500 ([] : Row))).map List.length =
      [1000, 1000, 500] := by
  have h := C6_batch_load [] (List.replicate 2500 ([] : Row)) 1000 (by decide)
  refine ⟨?_, ?_, ?_⟩
  · rw [h.1]
    simp only [List.nil_append, List.length_replicate]
  · rw [h.2.1]
    simp only [List.length_replicate]
  · rw [h.2.2.2]
    simp only [List.length_replicate]
    decide

/-- C7: schema provisioning is idempotent — running `create_table` a
second time from the state the first run produced changes nothing and
again reports success, because the table statement is guarded by
`IF NOT EXISTS` and each index is created only when its
(tablename, indexname) pair is absent from the `pg_indexes` catalog. -/
theorem C7_provisioning_idempotent (fails : String → Bool) (cfg : TableConfig)
    (σ : DbState) :
    create_table fails cfg ((create_table fails cfg σ).1) = create_table fails cfg σ
  ∧ (create_table fails cfg σ).2 = true := by
  constructor
  · have hmem : cfg.table_name ∈
        ((create_table fails cfg σ).1).tables.map Prod.fst := by
      rw [create_table_state, create_indexes_tables]
      exact execCreate_mem σ cfg.table_name (buildCreateSql cfg)
    calc create_table fails cfg ((create_table fails cfg σ).1)
        = (create_indexes fails cfg
            (execCreateTableIfNotExists ((create_table fails cfg σ).1)
              cfg.table_name (buildCreateSql cfg)), true) := rfl
      _ = (create_indexes fails cfg ((create_table fails cfg σ).1), true) := by
          rw [execCreate_of_mem _ _ _ hmem]
      _ = (create_indexes fails cfg (create_indexes fails cfg
            (execCreateTableIfNotExists σ cfg.table_name (buildCreateSql cfg))),
            true) := by
          rw [create_table_state]
      _ = (create_indexes fails cfg
            (execCreateTableIfNotExists σ cfg.table_name (buildCreateSql cfg)),
            true) := by
          rw [create_indexes_idem]
      _ = create_table fails cfg σ := rfl
  · rfl

/-- C8: `get_table_stats` never propagates a query failure — if any of
the three aggregate queries fails it returns the empty result instead of
raising, and when all succeed it returns the total record count together
with the per-source_sheet and per-status group counts. -/
theorem C8_stats_never_propagates (fails : Nat → Bool) (table : List Row) :
    ((fails 0 || fails 1 || fails 2) = true → get_table_stats fails table = none)
  ∧ ((fails 0 || fails 1 || fails 2) = false →
      get_table_stats fails table =
        some (LoadStats.mk table.length (groupCountDesc table "source_sheet")
          (groupCountDesc table "status"))) := by
  constructor
  · intro h
    unfold get_table_stats getTableStatsE runQuery
    by_cases h0 : fails 0
    · simp [h0]
    · by_cases h1 : fails 1
      · simp [h0, h1]
      · by_cases h2 : fails 2
        · simp [h0, h1, h2]
        · exfalso
          simp [h0, h1, h2] at h
  · intro h
    have h3 : (fails 0 = false ∧ fails 1 = false) ∧ fails 2 = false := by
      simpa [Bool.or_eq_false_iff] using h
    unfold get_table_stats getTableStatsE runQuery
    simp [h3.1.1, h3.1.2, h3.2]

/-- C8 witness: on a concrete one-row table, a failing second query
yields the empty result, and an all-success run yields the assembled
statistics. -/
theorem C8_stats_never_propagates_witness :
    get_table_stats (fun k => k == 1) [[("status", PValue.vstr "A")]] = none
  ∧ get_table_stats (fun _ => false) [[("status", PValue.vstr "A")]] =
      some (LoadStats.mk 1
        (groupCountDesc [[("status", PValue.vstr "A")]] "source_sheet")
        (groupCountDesc [[("status", PValue.vstr "A")]] "status")) := by
  constructor
  · exact (C8_stats_never_propagates (fun k => k == 1)
      [[("status", PValue.vstr "A")]]).1 (by decide)
  · exact (C8_stats_never_propagates (fun _ => false)
      [[("status", PValue.vstr "A")]]).2 (by decide)

/-- C10: in the generated column DDL, the `DEFAULT` clause is emitted
exactly when a default is configured and its literal is truthy — a falsy
configured default (0, false, or the empty string) is silently omitted —
and `NOT NULL` is emitted exactly when `nullable` is present and false
(a missing flag counts as nullable).  `colDefSpec` words these
conditions as the specification does; `colDef` is the source's
accumulation. -/
theorem C10_default_truthy_omitted (col_name : String) (c : ColumnSpec) :
    colDef col_name c = colDefSpec col_name c
  ∧ (∀ l : SqlLit, c.defaultVal = some l → truthy l = false →
      colDef col_name c =
        colDef col_name
          (ColumnSpec.mk c.type c.primary_key c.unique c.nullable none)) := by
  constructor
  · rcases c with ⟨t, pk, uq, nl, dv⟩
    unfold colDef colDefSpec
    rcases pk with _ | pkb
    all_goals rcases uq with _ | uqb
    all_goals rcases nl with _ | nlb
    all_goals rcases dv with _ | l
    all_goals try cases pkb
    all_goals try cases uqb
    all_goals try cases nlb
    all_goals rfl
  · intro l hdv ht
    rcases c with ⟨t, pk, uq, nl, dv⟩
    simp only at hdv
    subst hdv
    unfold colDef
    simp only [ht, if_false, Bool.false_eq_true]

/-- C10 witness: a falsy integer default 0 produces the same DDL as no
default at all, and the source accumulation agrees with the
specification wording on a concrete NOT NULL column. -/
theorem C10_default_truthy_omitted_witness :
    colDef "score" (ColumnSpec.mk "INTEGER" none none none (some (SqlLit.lint 0))) =
      colDef "score" (ColumnSpec.mk "INTEGER" none none none none)
  ∧ colDef "flag" (ColumnSpec.mk "BOOLEAN" none none (some false) none) =
      colDefSpec "flag" (ColumnSpec.mk "BOOLEAN" none none (some false) none) := by
  constructor
  · exact (C10_default_truthy_omitted "score"
      (ColumnSpec.mk "INTEGER" none none none (some (SqlLit.lint 0)))).2
      (SqlLit.lint 0) rfl rfl
  · exact (C10_default_truthy_omitted "flag"
      (ColumnSpec.mk "BOOLEAN" none none (some false) none)).1
